import Mathlib

/-!
Verification of the camera-recorder component in `src/src/App.jsx`
(repository KunjManavadariya/video-recorder).

The component is shallowly embedded: each JavaScript function relevant to a
claim becomes a Lean definition over explicit state, browser side effects
(stream acquisition, object-URL creation, timer cancellation) become data in
the state or entries of an action trace, and JavaScript strings become Lean
strings.  Chunks, streams and URLs are identified by natural numbers standing
for JavaScript object identity (each allocation is fresh).
-/

namespace VideoRecorder

/-! ### Filter expression composition (`applyFilters`, App.jsx lines 209-229) -/

/-- Embedding of JavaScript `String.prototype.trim` on the character list:
strip leading and trailing whitespace. -/
def jsTrimChars (l : List Char) : List Char :=
  ((l.dropWhile Char.isWhitespace).reverse.dropWhile Char.isWhitespace).reverse

/-- Embedding of JavaScript `String.prototype.trim`. -/
def jsTrim (s : String) : String :=
  String.mk (jsTrimChars s.data)

/-- Embedding of `applyFilters` (App.jsx lines 209-229): builds the CSS filter
expression from the named filter and the brightness / contrast / saturation
settings, appending one term per non-default setting, then trims the
accumulated string and falls back to `"none"` when it is empty (the JavaScript
`filterString.trim() || "none"`). -/
def applyFilters (filter : String) (brightness contrast saturation : Nat) : String :=
  let filterString := ""
  let filterString := if filter ≠ "none" then filterString ++ filter ++ " " else filterString
  let filterString :=
    if brightness ≠ 100 then
      filterString ++ "brightness(" ++ toString brightness ++ "%) "
    else filterString
  let filterString :=
    if contrast ≠ 100 then
      filterString ++ "contrast(" ++ toString contrast ++ "%) "
    else filterString
  let filterString :=
    if saturation ≠ 100 then
      filterString ++ "saturate(" ++ toString saturation ++ "%) "
    else filterString
  let trimmed := jsTrim filterString
  if trimmed = "" then "none" else trimmed

/-- The named filter values offered by the component's filter select
(App.jsx lines 712-716). -/
def filterOptions : List String :=
  ["grayscale(100%)", "sepia(100%)", "invert(100%)", "blur(2px)", "hue-rotate(90deg)"]

/-- Trimming a list that starts with a non-whitespace character and ends in a
non-whitespace character followed by a single space removes exactly that
trailing space. -/
theorem jsTrimChars_append_space (c₀ c₁ : Char) (l : List Char)
    (h0 : c₀.isWhitespace = false) (h1 : c₁.isWhitespace = false) :
    jsTrimChars (c₀ :: (l ++ [c₁, ' '])) = c₀ :: (l ++ [c₁]) := by
  unfold jsTrimChars
  rw [List.dropWhile_cons_of_neg (by simp [h0])]
  have hrev : (c₀ :: (l ++ [c₁, ' '])).reverse = ' ' :: c₁ :: (l.reverse ++ [c₀]) := by
    simp
  rw [hrev]
  rw [List.dropWhile_cons_of_pos (by simp)]
  rw [List.dropWhile_cons_of_neg (by simp [h1])]
  simp

/-- Trimming at the list level with an arbitrary tail spliced into the middle:
the first character and the character right before the final space decide the
trim, the middle is never inspected. -/
theorem jsTrimChars_term (c₀ c₁ : Char) (l₁ l₂ : List Char)
    (h0 : c₀.isWhitespace = false) (h1 : c₁.isWhitespace = false) :
    jsTrimChars ((c₀ :: l₁) ++ l₂ ++ [c₁, ' ']) = (c₀ :: l₁) ++ l₂ ++ [c₁] := by
  have h := jsTrimChars_append_space c₀ c₁ (l₁ ++ l₂) h0 h1
  simpa [List.append_assoc] using h

/-- The brightness-only filter string trims to the brightness term. -/
theorem jsTrim_brightness (b : Nat) :
    jsTrim ("" ++ "brightness(" ++ toString b ++ "%) ")
      = "brightness(" ++ toString b ++ "%)" := by
  apply String.ext
  have e1 : "brightness(".data = 'b' :: "rightness(".data := rfl
  show jsTrimChars (("" ++ "brightness(" ++ toString b ++ "%) ").data)
      = ("brightness(" ++ toString b ++ "%)").data
  rw [String.data_append, String.data_append, String.data_append,
    String.data_append, String.data_append, e1]
  have h := jsTrimChars_term 'b' ')' "rightness(".data ((toString b).data ++ ['%'])
    (by decide) (by decide)
  simpa [List.append_assoc] using h

/-- The contrast-only filter string trims to the contrast term. -/
theorem jsTrim_contrast (c : Nat) :
    jsTrim ("" ++ "contrast(" ++ toString c ++ "%) ")
      = "contrast(" ++ toString c ++ "%)" := by
  apply String.ext
  have e1 : "contrast(".data = 'c' :: "ontrast(".data := rfl
  show jsTrimChars (("" ++ "contrast(" ++ toString c ++ "%) ").data)
      = ("contrast(" ++ toString c ++ "%)").data
  rw [String.data_append, String.data_append, String.data_append,
    String.data_append, String.data_append, e1]
  have h := jsTrimChars_term 'c' ')' "ontrast(".data ((toString c).data ++ ['%'])
    (by decide) (by decide)
  simpa [List.append_assoc] using h

/-- The saturation-only filter string trims to the saturate term. -/
theorem jsTrim_saturate (s : Nat) :
    jsTrim ("" ++ "saturate(" ++ toString s ++ "%) ")
      = "saturate(" ++ toString s ++ "%)" := by
  apply String.ext
  have e1 : "saturate(".data = 's' :: "aturate(".data := rfl
  show jsTrimChars (("" ++ "saturate(" ++ toString s ++ "%) ").data)
      = ("saturate(" ++ toString s ++ "%)").data
  rw [String.data_append, String.data_append, String.data_append,
    String.data_append, String.data_append, e1]
  have h := jsTrimChars_term 's' ')' "aturate(".data ((toString s).data ++ ['%'])
    (by decide) (by decide)
  simpa [List.append_assoc] using h

/-- A nonempty trimmed string stays away from the `"none"` fallback: the
brightness term is never empty. -/
theorem brightness_term_ne_empty (b : Nat) :
    "brightness(" ++ toString b ++ "%)" ≠ "" := by
  intro h
  have hd := congrArg String.data h
  rw [String.data_append, String.data_append] at hd
  have : "brightness(".data = 'b' :: "rightness(".data := rfl
  simp [this] at hd

/-- The contrast term is never empty. -/
theorem contrast_term_ne_empty (c : Nat) :
    "contrast(" ++ toString c ++ "%)" ≠ "" := by
  intro h
  have hd := congrArg String.data h
  rw [String.data_append, String.data_append] at hd
  have : "contrast(".data = 'c' :: "ontrast(".data := rfl
  simp [this] at hd

/-- The saturate term is never empty. -/
theorem saturate_term_ne_empty (s : Nat) :
    "saturate(" ++ toString s ++ "%)" ≠ "" := by
  intro h
  have hd := congrArg String.data h
  rw [String.data_append, String.data_append] at hd
  have : "saturate(".data = 's' :: "aturate(".data := rfl
  simp [this] at hd

/-- C2: `applyFilters` returns the neutral expression `"none"` when brightness,
contrast and saturation are all `100` and the named filter is `"none"`; and
when exactly one of the four settings is non-default it returns exactly that
setting's expression term (`brightness(b%)`, `contrast(c%)`, `saturate(s%)`,
or the named filter string itself). -/
theorem applyFilters_neutral_and_single :
    applyFilters "none" 100 100 100 = "none" ∧
    (∀ b : Nat, b ≠ 100 →
      applyFilters "none" b 100 100 = "brightness(" ++ toString b ++ "%)") ∧
    (∀ c : Nat, c ≠ 100 →
      applyFilters "none" 100 c 100 = "contrast(" ++ toString c ++ "%)") ∧
    (∀ s : Nat, s ≠ 100 →
      applyFilters "none" 100 100 s = "saturate(" ++ toString s ++ "%)") ∧
    (∀ f ∈ filterOptions, applyFilters f 100 100 100 = f) := by
  refine ⟨rfl, ?_, ?_, ?_, ?_⟩
  · intro b hb
    unfold applyFilters
    simp only []
    rw [if_neg (by simp : ¬("none" ≠ "none")), if_pos hb,
      if_neg (by simp : ¬((100 : Nat) ≠ 100)), if_neg (by simp : ¬((100 : Nat) ≠ 100)),
      jsTrim_brightness, if_neg (brightness_term_ne_empty b)]
  · intro c hc
    unfold applyFilters
    simp only []
    rw [if_neg (by simp : ¬("none" ≠ "none")), if_neg (by simp : ¬((100 : Nat) ≠ 100)),
      if_pos hc, if_neg (by simp : ¬((100 : Nat) ≠ 100)),
      jsTrim_contrast, if_neg (contrast_term_ne_empty c)]
  · intro s hs
    unfold applyFilters
    simp only []
    rw [if_neg (by simp : ¬("none" ≠ "none")), if_neg (by simp : ¬((100 : Nat) ≠ 100)),
      if_neg (by simp : ¬((100 : Nat) ≠ 100)), if_pos hs,
      jsTrim_saturate, if_neg (saturate_term_ne_empty s)]
  · intro f hf
    simp only [filterOptions, List.mem_cons, List.not_mem_nil, or_false] at hf
    rcases hf with rfl | rfl | rfl | rfl | rfl <;> rfl

/-- Witness for C2: concrete single non-default settings produce exactly the
corresponding term. -/
theorem applyFilters_neutral_and_single_cases :
    applyFilters "none" 150 100 100 = "brightness(" ++ toString 150 ++ "%)" ∧
    applyFilters "none" 100 50 100 = "contrast(" ++ toString 50 ++ "%)" ∧
    applyFilters "none" 100 100 0 = "saturate(" ++ toString 0 ++ "%)" ∧
    applyFilters "sepia(100%)" 100 100 100 = "sepia(100%)" :=
  ⟨applyFilters_neutral_and_single.2.1 150 (by decide),
   applyFilters_neutral_and_single.2.2.1 50 (by decide),
   applyFilters_neutral_and_single.2.2.2.1 0 (by decide),
   applyFilters_neutral_and_single.2.2.2.2 "sepia(100%)" (by simp [filterOptions])⟩

/-! ### Chunk buffer and memory-manager chunk registry
(`addRecordedChunk`, App.jsx lines 176-187; `memoryManager`, lines 63-91)

Chunks are identified by natural numbers standing for JavaScript object
identity: every `Blob` delivered by a `dataavailable` event is a fresh object,
so a sequence of appended chunks never repeats an identity (`List.Nodup`).
`memoryManager.chunks` is a JavaScript `Set`, embedded as a `Finset`. -/

structure ChunkState where
  buffer : List Nat
  registry : Finset Nat
deriving DecidableEq

/-- Embedding of `addRecordedChunk` (App.jsx lines 176-187): push the chunk,
register it, and when the buffer length exceeds 1000 splice off the oldest 500
and delete each of them from the registry. -/
def addRecordedChunk (s : ChunkState) (chunk : Nat) : ChunkState :=
  let buffer := s.buffer ++ [chunk]
  let registry := insert chunk s.registry
  if buffer.length > 1000 then
    { buffer := buffer.drop 500,
      registry := (buffer.take 500).foldl (fun r c => r.erase c) registry }
  else
    { buffer := buffer, registry := registry }

/-- A run of `addRecordedChunk` over a sequence of data events, starting from
the empty buffer and empty registry set on recording start. -/
def runAppends (chunks : List Nat) : ChunkState :=
  chunks.foldl addRecordedChunk ⟨[], ∅⟩

/-- Folding `Finset.erase` never adds elements. -/
theorem mem_of_mem_foldl_erase {l : List Nat} {r : Finset Nat} {x : Nat}
    (h : x ∈ l.foldl (fun acc c => acc.erase c) r) : x ∈ r := by
  induction l generalizing r with
  | nil => simpa using h
  | cons a l ih =>
    have := ih (r := r.erase a) (by simpa using h)
    exact Finset.mem_of_mem_erase this

/-- Every element of the erased list is gone after the fold. -/
theorem not_mem_foldl_erase_of_mem {l : List Nat} {r : Finset Nat} {x : Nat}
    (h : x ∈ l) : x ∉ l.foldl (fun acc c => acc.erase c) r := by
  induction l generalizing r with
  | nil => simp at h
  | cons a l ih =>
    rcases List.mem_cons.mp h with rfl | hx
    · intro hmem
      simp only [List.foldl_cons] at hmem
      have := mem_of_mem_foldl_erase hmem
      simp at this
    · intro hmem
      simp only [List.foldl_cons] at hmem
      exact ih hx hmem

/-- Elements not in the erased list survive the fold. -/
theorem mem_foldl_erase_of_not_mem {l : List Nat} {r : Finset Nat} {x : Nat}
    (hl : x ∉ l) (hr : x ∈ r) : x ∈ l.foldl (fun acc c => acc.erase c) r := by
  induction l generalizing r with
  | nil => simpa using hr
  | cons a l ih =>
    have hxa : x ≠ a := fun h => hl (h ▸ List.mem_cons_self a l)
    have hxl : x ∉ l := fun h => hl (List.mem_cons_of_mem a h)
    exact ih hxl (Finset.mem_erase.mpr ⟨hxa, hr⟩)

/-- Unfolding of `addRecordedChunk` in the compaction branch. -/
theorem addRecordedChunk_of_over {s : ChunkState} {chunk : Nat}
    (h : (s.buffer ++ [chunk]).length > 1000) :
    addRecordedChunk s chunk =
      ⟨(s.buffer ++ [chunk]).drop 500,
        ((s.buffer ++ [chunk]).take 500).foldl (fun r c => r.erase c)
          (insert chunk s.registry)⟩ := by
  unfold addRecordedChunk
  rw [if_pos h]

/-- Unfolding of `addRecordedChunk` when no compaction triggers. -/
theorem addRecordedChunk_of_le {s : ChunkState} {chunk : Nat}
    (h : ¬(s.buffer ++ [chunk]).length > 1000) :
    addRecordedChunk s chunk =
      ⟨s.buffer ++ [chunk], insert chunk s.registry⟩ := by
  unfold addRecordedChunk
  rw [if_neg h]

/-- The inductive invariant of the chunk buffer: no duplicate identities, at
most 1000 chunks, every buffered chunk registered, and every buffered chunk
drawn from the already-appended sequence. -/
def ChunkInv (s : ChunkState) (seen : List Nat) : Prop :=
  s.buffer.Nodup ∧ s.buffer.length ≤ 1000 ∧
    (∀ c ∈ s.buffer, c ∈ s.registry) ∧ (∀ c ∈ s.buffer, c ∈ seen)

/-- One append preserves the invariant when the appended identity is fresh. -/
theorem chunkInv_step {s : ChunkState} {seen : List Nat} {chunk : Nat}
    (hinv : ChunkInv s seen) (hfresh : chunk ∉ seen) :
    ChunkInv (addRecordedChunk s chunk) (seen ++ [chunk]) := by
  obtain ⟨hnd, hlen, hreg, hseen⟩ := hinv
  have hnb : chunk ∉ s.buffer := fun h => hfresh (hseen chunk h)
  have hbufnd : (s.buffer ++ [chunk]).Nodup := by
    simp [List.nodup_append, hnd, hnb]
  by_cases hover : (s.buffer ++ [chunk]).length > 1000
  · rw [addRecordedChunk_of_over hover]
    refine ⟨(List.drop_sublist 500 _).nodup hbufnd, ?_, ?_, ?_⟩
    · have hlen1 : (s.buffer ++ [chunk]).length ≤ 1001 := by
        rw [List.length_append]
        simp
        omega
      show ((s.buffer ++ [chunk]).drop 500).length ≤ 1000
      rw [List.length_drop]
      omega
    · intro c hc
      have hcbuf : c ∈ s.buffer ++ [chunk] :=
        List.mem_of_mem_drop hc
      have hcreg : c ∈ insert chunk s.registry := by
        rcases List.mem_append.mp hcbuf with h | h
        · exact Finset.mem_insert_of_mem (hreg c h)
        · simp at h; simp [h]
      have hctake : c ∉ (s.buffer ++ [chunk]).take 500 := by
        intro htake
        have hsplit : (s.buffer ++ [chunk]).take 500 ++ (s.buffer ++ [chunk]).drop 500
            = s.buffer ++ [chunk] := List.take_append_drop 500 _
        have hnd2 : ((s.buffer ++ [chunk]).take 500 ++ (s.buffer ++ [chunk]).drop 500).Nodup := by
          rw [hsplit]; exact hbufnd
        have hdisj := (List.nodup_append.mp hnd2).2.2
        exact hdisj htake hc
      exact mem_foldl_erase_of_not_mem hctake hcreg
    · intro c hc
      have hcbuf : c ∈ s.buffer ++ [chunk] := List.mem_of_mem_drop hc
      rcases List.mem_append.mp hcbuf with h | h
      · exact List.mem_append_left _ (hseen c h)
      · simp at h; simp [h]
  · rw [addRecordedChunk_of_le hover]
    refine ⟨hbufnd, ?_, ?_, ?_⟩
    · show (s.buffer ++ [chunk]).length ≤ 1000
      omega
    · intro c hc
      rcases List.mem_append.mp hc with h | h
      · exact Finset.mem_insert_of_mem (hreg c h)
      · simp at h; simp [h]
    · intro c hc
      rcases List.mem_append.mp hc with h | h
      · exact List.mem_append_left _ (hseen c h)
      · simp at h; simp [h]

/-- The invariant holds along any fresh (duplicate-free, unseen) suffix. -/
theorem chunkInv_run (chunks : List Nat) :
    ∀ (s : ChunkState) (seen : List Nat), ChunkInv s seen → chunks.Nodup →
      (∀ x ∈ chunks, x ∉ seen) →
      ChunkInv (chunks.foldl addRecordedChunk s) (seen ++ chunks) := by
  induction chunks with
  | nil => intro s seen hinv _ _; simpa using hinv
  | cons a l ih =>
    intro s seen hinv hnd hdisj
    have hstep := chunkInv_step hinv (hdisj a (List.mem_cons_self a l))
    have hnd' : l.Nodup := (List.nodup_cons.mp hnd).2
    have hdisj' : ∀ x ∈ l, x ∉ seen ++ [a] := by
      intro x hx hmem
      rcases List.mem_append.mp hmem with h | h
      · exact hdisj x (List.mem_cons_of_mem a hx) h
      · simp at h
        exact (List.nodup_cons.mp hnd).1 (h ▸ hx)
    have := ih (addRecordedChunk s a) (seen ++ [a]) hstep hnd' hdisj'
    simpa [List.append_assoc] using this

/-- C1: as soon as the pushed buffer exceeds 1000 chunks, the oldest 500 are
removed from the buffer and deleted from the registry; consequently, after any
duplicate-free sequence of appends the buffer holds at most 1000 chunks and
every chunk remaining in the buffer is still in the registry. -/
theorem addRecordedChunk_compacts_and_bounds :
    (∀ (s : ChunkState) (chunk : Nat), (s.buffer ++ [chunk]).length > 1000 →
      (addRecordedChunk s chunk).buffer = (s.buffer ++ [chunk]).drop 500 ∧
      ∀ x ∈ (s.buffer ++ [chunk]).take 500, x ∉ (addRecordedChunk s chunk).registry) ∧
    (∀ chunks : List Nat, chunks.Nodup →
      (runAppends chunks).buffer.length ≤ 1000 ∧
      ∀ c ∈ (runAppends chunks).buffer, c ∈ (runAppends chunks).registry) := by
  constructor
  · intro s chunk hover
    rw [addRecordedChunk_of_over hover]
    exact ⟨rfl, fun x hx => not_mem_foldl_erase_of_mem hx⟩
  · intro chunks hnd
    have hinit : ChunkInv ⟨[], ∅⟩ [] := by
      refine ⟨List.nodup_nil, by simp, ?_, ?_⟩ <;> simp
    have := chunkInv_run chunks ⟨[], ∅⟩ [] hinit hnd (by simp)
    exact ⟨this.2.1, this.2.2.1⟩

set_option maxRecDepth 8000 in
/-- Witness for C1: a concrete overfull buffer compacts, and a concrete
three-chunk run keeps the bound and tracks every buffered chunk. -/
theorem addRecordedChunk_compacts_and_bounds_cases :
    ((addRecordedChunk ⟨List.range 1000, ∅⟩ 1000).buffer
        = (List.range 1000 ++ [1000]).drop 500 ∧
      ∀ x ∈ (List.range 1000 ++ [1000]).take 500,
        x ∉ (addRecordedChunk ⟨List.range 1000, ∅⟩ 1000).registry) ∧
    ((runAppends [7, 8, 9]).buffer.length ≤ 1000 ∧
      ∀ c ∈ (runAppends [7, 8, 9]).buffer, c ∈ (runAppends [7, 8, 9]).registry) :=
  ⟨addRecordedChunk_compacts_and_bounds.1 ⟨List.range 1000, ∅⟩ 1000
      (by show (List.range 1000 ++ [1000]).length > 1000
          rw [List.length_append, List.length_range]
          norm_num),
   addRecordedChunk_compacts_and_bounds.2 [7, 8, 9] (by decide)⟩

/-! ### Device acquisition and the permission-denial retry
(`startPreview` catch block, App.jsx lines 334-460) -/

/-- A JavaScript error value: its `name` and its `message`. -/
structure JSError where
  name : String
  message : String
deriving DecidableEq

/-- Permission states reported by `navigator.permissions.query`. -/
inductive PermState where
  | granted
  | denied
  | prompt
deriving DecidableEq

/-- Observable outcome of one `startPreview` call: how many times
`getUserMedia` was invoked, the error message surfaced (if any), and whether
the preview ended up running. -/
structure PreviewOutcome where
  attempts : Nat
  errorMsg : Option String
  previewing : Bool
deriving DecidableEq

/-- The permission-denial test of App.jsx lines 338-341
(`err.name === "NotAllowedError" || err.name === "PermissionDeniedError"`). -/
def permissionDeniedName (n : String) : Bool :=
  n == "NotAllowedError" || n == "PermissionDeniedError"

/-- Embedding of the acquisition and error-handling path of `startPreview`
(App.jsx lines 247-464).  The browser is abstracted by three oracles: the
first `getUserMedia` call (`none` = success, `some err` = throw), the pair of
`navigator.permissions.query` results for camera and microphone (`none` when
the query itself throws, App.jsx lines 452-457), and the retried
`getUserMedia` call inside the `setTimeout` (App.jsx lines 360-450). -/
def startPreview (firstAttempt : Option JSError)
    (permQuery : Option (PermState × PermState))
    (retryAttempt : Option JSError) : PreviewOutcome :=
  match firstAttempt with
  | none => { attempts := 1, errorMsg := none, previewing := true }
  | some err =>
    if permissionDeniedName err.name then
      match permQuery with
      | none =>
        { attempts := 1,
          errorMsg := some "Unable to check permissions. Please ensure camera and microphone access is allowed and try again.",
          previewing := false }
      | some (cameraState, micState) =>
        if cameraState = PermState.denied ∨ micState = PermState.denied then
          { attempts := 1,
            errorMsg := some "Camera and microphone access is required. Please enable permissions in your browser settings and try again.",
            previewing := false }
        else
          match retryAttempt with
          | none => { attempts := 2, errorMsg := none, previewing := true }
          | some retryErr =>
            { attempts := 2,
              errorMsg := some ("Please grant camera and microphone permissions and try again. Error: " ++ retryErr.message),
              previewing := false }
    else
      { attempts := 1,
        errorMsg := some ("Failed to start preview: " ++ err.message),
        previewing := false }

/-- C3: on a permission-denial error with an explicitly denied queried state,
a terminal message is surfaced and `getUserMedia` is never retried; on a
permission-denial error with neither state denied, acquisition is retried
exactly once; every other error kind is surfaced immediately with no retry. -/
theorem startPreview_retry_policy :
    (∀ (err : JSError) (cam mic : PermState) (retry : Option JSError),
      permissionDeniedName err.name = true →
      (cam = PermState.denied ∨ mic = PermState.denied) →
      (startPreview (some err) (some (cam, mic)) retry).attempts = 1 ∧
      (startPreview (some err) (some (cam, mic)) retry).errorMsg =
        some "Camera and microphone access is required. Please enable permissions in your browser settings and try again.") ∧
    (∀ (err : JSError) (cam mic : PermState) (retry : Option JSError),
      permissionDeniedName err.name = true →
      ¬(cam = PermState.denied ∨ mic = PermState.denied) →
      (startPreview (some err) (some (cam, mic)) retry).attempts = 2) ∧
    (∀ (err : JSError) (permQuery : Option (PermState × PermState))
        (retry : Option JSError),
      permissionDeniedName err.name = false →
      (startPreview (some err) permQuery retry).attempts = 1 ∧
      (startPreview (some err) permQuery retry).errorMsg =
        some ("Failed to start preview: " ++ err.message)) := by
  refine ⟨?_, ?_, ?_⟩
  · intro err cam mic retry hperm hdenied
    simp [startPreview, hperm, hdenied]
  · intro err cam mic retry hperm hdenied
    rcases retry with _ | retryErr <;> simp [startPreview, hperm, hdenied]
  · intro err permQuery retry hperm
    simp [startPreview, hperm]

/-- Witness for C3: a denied state is terminal with one attempt, an undecided
state retries once, and a non-permission error surfaces with one attempt. -/
theorem startPreview_retry_policy_cases :
    ((startPreview (some ⟨"NotAllowedError", "Permission denied"⟩)
        (some (PermState.denied, PermState.prompt)) none).attempts = 1 ∧
      (startPreview (some ⟨"NotAllowedError", "Permission denied"⟩)
        (some (PermState.denied, PermState.prompt)) none).errorMsg =
        some "Camera and microphone access is required. Please enable permissions in your browser settings and try again.") ∧
    (startPreview (some ⟨"NotAllowedError", "Permission denied"⟩)
        (some (PermState.prompt, PermState.prompt)) none).attempts = 2 ∧
    ((startPreview (some ⟨"NotReadableError", "Device busy"⟩)
        (some (PermState.granted, PermState.granted)) none).attempts = 1 ∧
      (startPreview (some ⟨"NotReadableError", "Device busy"⟩)
        (some (PermState.granted, PermState.granted)) none).errorMsg =
        some ("Failed to start preview: " ++ "Device busy")) :=
  ⟨startPreview_retry_policy.1 ⟨"NotAllowedError", "Permission denied"⟩
      PermState.denied PermState.prompt none (by decide) (Or.inl rfl),
   startPreview_retry_policy.2.1 ⟨"NotAllowedError", "Permission denied"⟩
      PermState.prompt PermState.prompt none (by decide) (by decide),
   startPreview_retry_policy.2.2 ⟨"NotReadableError", "Device busy"⟩
      (some (PermState.granted, PermState.granted)) none (by decide)⟩

/-! ### `stopRecording` (App.jsx lines 551-568) -/

/-- The component state read by `stopRecording`: the media recorder ref with
its `state` string when present, whether the recording-timer interval ref is
set, the previewing flag, and whether the device stream ref is held. -/
structure RecorderComponentState where
  mediaRecorder : Option String
  recordingIntervalSet : Bool
  isPreviewing : Bool
  streamHeld : Bool
deriving DecidableEq

/-- The side effects `stopRecording` performs. -/
structure StopRecordingEffects where
  recorderStopCalled : Bool
  intervalCleared : Bool
  tracksStopped : Bool
  isRecordingAfter : Bool
deriving DecidableEq

/-- Embedding of `stopRecording` (App.jsx lines 551-568): call the encoder's
`stop` only when the recorder exists and its state is `"recording"`, clear the
interval timer when set, stop the stream's tracks only when not previewing and
a stream is held, and clear the recording flag. -/
def stopRecording (s : RecorderComponentState) : StopRecordingEffects :=
  { recorderStopCalled :=
      match s.mediaRecorder with
      | some st => st == "recording"
      | none => false,
    intervalCleared := s.recordingIntervalSet,
    tracksStopped := !s.isPreviewing && s.streamHeld,
    isRecordingAfter := false }

/-- C10: `stopRecording` invokes the encoder's stop exactly when the recorder
exists in state `"recording"`, always leaves no pending interval timer, stops
the device tracks exactly when not previewing with a held stream, and in
particular leaves the tracks running when a preview is live. -/
theorem stopRecording_selective :
    ∀ s : RecorderComponentState,
      ((stopRecording s).recorderStopCalled = true ↔
        s.mediaRecorder = some "recording") ∧
      (stopRecording s).intervalCleared = s.recordingIntervalSet ∧
      ((stopRecording s).tracksStopped = true ↔
        s.isPreviewing = false ∧ s.streamHeld = true) ∧
      (s.isPreviewing = true → (stopRecording s).tracksStopped = false) ∧
      (stopRecording s).isRecordingAfter = false := by
  intro s
  obtain ⟨mr, intv, prev, held⟩ := s
  refine ⟨?_, rfl, ?_, ?_, rfl⟩
  · cases mr with
    | none => simp [stopRecording]
    | some st => simp [stopRecording]
  · cases prev <;> cases held <;> simp [stopRecording]
  · intro hprev
    simp only at hprev
    subst hprev
    simp [stopRecording]

/-- Witness for C10: stopping a recording over a live preview stops the
encoder and clears the timer but leaves the preview stream's tracks running. -/
theorem stopRecording_selective_cases :
    (stopRecording ⟨some "recording", true, true, true⟩).recorderStopCalled = true ∧
    (stopRecording ⟨some "recording", true, true, true⟩).intervalCleared = true ∧
    (stopRecording ⟨some "recording", true, true, true⟩).tracksStopped = false ∧
    (stopRecording ⟨some "recording", true, true, true⟩).isRecordingAfter = false :=
  ⟨((stopRecording_selective ⟨some "recording", true, true, true⟩).1).mpr rfl,
   (stopRecording_selective ⟨some "recording", true, true, true⟩).2.1,
   (stopRecording_selective ⟨some "recording", true, true, true⟩).2.2.2.1 rfl,
   (stopRecording_selective ⟨some "recording", true, true, true⟩).2.2.2.2⟩

/-! ### The recorder stop handler (`mediaRecorderRef.current.onstop`,
App.jsx lines 516-534)

A chunk is modelled by its byte size (`Blob.size`); the size of a `Blob` built
from a chunk list is the sum of the chunk sizes, and `new Blob([])` has
size 0. -/

/-- Result of running the `onstop` handler. -/
structure RecordingArtifact where
  blobChunks : List Nat
  blobSize : Nat
  videoUrl : Option Nat
  videoSize : Option Nat
  chunksAfter : List Nat
  urlRegistered : Bool
deriving DecidableEq

/-- Embedding of the `onstop` handler (App.jsx lines 516-534): build a Blob
from the current chunk buffer, create an object URL for it (`url` is the fresh
identifier handed back by the host), register the URL with the memory manager,
publish the URL and the blob's size, and clear the chunk buffer. -/
def onstopHandler (chunks : List Nat) (url : Nat) : RecordingArtifact :=
  { blobChunks := chunks,
    blobSize := chunks.sum,
    videoUrl := some url,
    videoSize := some chunks.sum,
    chunksAfter := [],
    urlRegistered := true }

/-- C6: stopping with zero recorded chunks still yields a valid artifact: the
blob is built from the empty chunk sequence with size 0, the published size is
0, and a registered artifact URL is set. -/
theorem onstopHandler_empty_chunks (url : Nat) :
    (onstopHandler [] url).blobSize = 0 ∧
    (onstopHandler [] url).videoSize = some 0 ∧
    (onstopHandler [] url).videoUrl = some url ∧
    (onstopHandler [] url).urlRegistered = true ∧
    (onstopHandler [] url).chunksAfter = [] :=
  ⟨rfl, rfl, rfl, rfl, rfl⟩

/-! ### Encoder configuration (`startRecording`, App.jsx lines 493-508) -/

/-- The `MediaRecorder` options object. -/
structure RecorderOptions where
  mimeType : String
  videoBitsPerSecond : Nat
deriving DecidableEq

/-- Embedding of the encoder configuration in `startRecording` (App.jsx lines
493-508): the options start with the preferred codec pair and the
quality-tier bitrate; when `MediaRecorder.isTypeSupported` rejects the
preferred type the mime type falls back to `"video/webm"`; the chunk buffer
is reset to `[]` (App.jsx line 508). -/
def startRecordingConfig (videoQuality : String)
    (isTypeSupported : String → Bool) : RecorderOptions × List Nat :=
  let options : RecorderOptions :=
    { mimeType := "video/webm;codecs=vp9,opus",
      videoBitsPerSecond :=
        if videoQuality == "1080p" then 5000000
        else if videoQuality == "720p" then 2500000
        else 1000000 }
  let options :=
    if !isTypeSupported options.mimeType then
      { options with mimeType := "video/webm" }
    else options
  (options, [])

/-- C7: on recording start the chunk buffer is reset to empty, the preferred
codec pair is used exactly when supported (otherwise the generic
`"video/webm"`), and the bitrate is 5000000 for 1080p, 2500000 for 720p and
1000000 otherwise. -/
theorem startRecordingConfig_spec :
    ∀ (videoQuality : String) (isTypeSupported : String → Bool),
      (startRecordingConfig videoQuality isTypeSupported).2 = [] ∧
      (isTypeSupported "video/webm;codecs=vp9,opus" = true →
        (startRecordingConfig videoQuality isTypeSupported).1.mimeType =
          "video/webm;codecs=vp9,opus") ∧
      (isTypeSupported "video/webm;codecs=vp9,opus" = false →
        (startRecordingConfig videoQuality isTypeSupported).1.mimeType =
          "video/webm") ∧
      (videoQuality = "1080p" →
        (startRecordingConfig videoQuality isTypeSupported).1.videoBitsPerSecond =
          5000000) ∧
      (videoQuality = "720p" →
        (startRecordingConfig videoQuality isTypeSupported).1.videoBitsPerSecond =
          2500000) ∧
      (videoQuality ≠ "1080p" → videoQuality ≠ "720p" →
        (startRecordingConfig videoQuality isTypeSupported).1.videoBitsPerSecond =
          1000000) := by
  intro videoQuality isTypeSupported
  refine ⟨rfl, ?_, ?_, ?_, ?_, ?_⟩
  · intro hsup
    simp [startRecordingConfig, hsup]
  · intro hsup
    simp [startRecordingConfig, hsup]
  · intro hq
    subst hq
    simp only [startRecordingConfig]
    cases isTypeSupported "video/webm;codecs=vp9,opus" <;> simp
  · intro hq
    subst hq
    simp only [startRecordingConfig]
    cases isTypeSupported "video/webm;codecs=vp9,opus" <;> simp
  · intro hq1 hq2
    simp only [startRecordingConfig]
    have h1 : (videoQuality == "1080p") = false := by
      simpa using hq1
    have h2 : (videoQuality == "720p") = false := by
      simpa using hq2
    cases isTypeSupported "video/webm;codecs=vp9,opus" <;> simp [h1, h2]

/-- Witness for C7: a 720p recording on a host that rejects the codec pair
resets the buffer, falls back to `"video/webm"` and uses 2500000 bps. -/
theorem startRecordingConfig_spec_cases :
    (startRecordingConfig "720p" (fun _ => false)).2 = [] ∧
    (startRecordingConfig "720p" (fun _ => false)).1.mimeType = "video/webm" ∧
    (startRecordingConfig "720p" (fun _ => false)).1.videoBitsPerSecond = 2500000 :=
  ⟨(startRecordingConfig_spec "720p" (fun _ => false)).1,
   (startRecordingConfig_spec "720p" (fun _ => false)).2.2.1 rfl,
   (startRecordingConfig_spec "720p" (fun _ => false)).2.2.2.2.1 rfl⟩

/-! ### Device stream handles across double starts
(`startPreview` acquisition, App.jsx lines 247-263; `startRecording` stream
selection, lines 482-491; `stopPreview`, lines 466-474)

Streams are identified by the order in which `getUserMedia` hands them out;
`live` is the set of acquired streams whose tracks have not been stopped. -/

structure StreamState where
  live : Finset Nat
  streamRef : Option Nat
  isPreviewing : Bool
  nextStream : Nat
deriving DecidableEq

/-- Initial component state: no stream acquired. -/
def initialStreamState : StreamState := ⟨∅, none, false, 0⟩

/-- Embedding of the acquisition step of `startPreview` (App.jsx lines
252-259): `getUserMedia` returns a fresh stream, `videoStreamRef.current` is
overwritten with it, and previewing starts.  The previously held stream, if
any, is neither stopped nor reused. -/
def startPreviewAcquire (s : StreamState) : StreamState :=
  { live := insert s.nextStream s.live,
    streamRef := some s.nextStream,
    isPreviewing := true,
    nextStream := s.nextStream + 1 }

/-- Embedding of the stream selection of `startRecording` (App.jsx lines
482-491): when previewing with a held stream it is reused; otherwise a fresh
stream is acquired and the ref overwritten. -/
def startRecordingAcquire (s : StreamState) : StreamState :=
  if s.isPreviewing = true ∧ s.streamRef.isSome = true then s
  else
    { live := insert s.nextStream s.live,
      streamRef := some s.nextStream,
      isPreviewing := s.isPreviewing,
      nextStream := s.nextStream + 1 }

/-- Counterexample to C4: calling `startPreview` twice without stopping the
first leaves two acquired streams live — nothing stops or reuses the first
stream. -/
theorem startPreview_twice_two_live :
    (startPreviewAcquire (startPreviewAcquire initialStreamState)).live.card = 2 ∧
    (startPreviewAcquire (startPreviewAcquire initialStreamState)).live =
      insert 1 (insert 0 (∅ : Finset Nat)) := by
  constructor <;> decide

/-- C4 amended: `startRecording` while previewing with a held stream reuses it
and leaves the state unchanged; `startPreview`, however, always acquires a
fresh stream and overwrites the reference, and every previously live stream
stays live. -/
theorem stream_reuse_and_overwrite :
    (∀ s : StreamState, s.isPreviewing = true → s.streamRef.isSome = true →
      startRecordingAcquire s = s) ∧
    (∀ s : StreamState,
      (startPreviewAcquire s).live = insert s.nextStream s.live ∧
      (startPreviewAcquire s).streamRef = some s.nextStream ∧
      ∀ x ∈ s.live, x ∈ (startPreviewAcquire s).live) := by
  constructor
  · intro s hprev href
    unfold startRecordingAcquire
    rw [if_pos ⟨hprev, href⟩]
  · intro s
    exact ⟨rfl, rfl, fun x hx => Finset.mem_insert_of_mem hx⟩

/-- Witness for the amended C4: after one `startPreview` the recording start
reuses the held stream, while a second `startPreview` stacks a second live
stream on top of the first. -/
theorem stream_reuse_and_overwrite_cases :
    startRecordingAcquire (startPreviewAcquire initialStreamState) =
      startPreviewAcquire initialStreamState ∧
    (startPreviewAcquire (startPreviewAcquire initialStreamState)).live =
      insert (startPreviewAcquire initialStreamState).nextStream
        (startPreviewAcquire initialStreamState).live ∧
    0 ∈ (startPreviewAcquire (startPreviewAcquire initialStreamState)).live :=
  ⟨stream_reuse_and_overwrite.1 (startPreviewAcquire initialStreamState) rfl rfl,
   (stream_reuse_and_overwrite.2 (startPreviewAcquire initialStreamState)).1,
   (stream_reuse_and_overwrite.2 (startPreviewAcquire initialStreamState)).2.2 0
     (by decide)⟩

/-! ### Teardown action traces
(`useEffect` cleanup, App.jsx lines 140-151; `stopPreview`, lines 466-474) -/

/-- The teardown actions the component performs. -/
inductive TeardownStep where
  | cancelAnimation
  | clearRecordingInterval
  | terminateWorker
  | stopStreamTracks
  | revokeUrls
deriving DecidableEq

/-- Embedding of the `useEffect` cleanup (App.jsx lines 140-151), given which
refs are non-null: cancel the pending animation frame, clear the recording
interval, terminate the worker, then `memoryManager.cleanup()` revokes the
registered URLs.  No step of it stops the device stream's tracks. -/
def unmountCleanup (animPending intervalSet workerSet : Bool) : List TeardownStep :=
  (if animPending then [TeardownStep.cancelAnimation] else []) ++
  (if intervalSet then [TeardownStep.clearRecordingInterval] else []) ++
  (if workerSet then [TeardownStep.terminateWorker] else []) ++
  [TeardownStep.revokeUrls]

/-- Embedding of `stopPreview` (App.jsx lines 466-474): stop the held
stream's tracks first, then cancel the pending animation frame; no URL is
revoked. -/
def stopPreviewSteps (streamHeld animPending : Bool) : List TeardownStep :=
  (if streamHeld then [TeardownStep.stopStreamTracks] else []) ++
  (if animPending then [TeardownStep.cancelAnimation] else [])

/-- Counterexample to C8: with every ref set, the unmount cleanup never stops
the device stream's tracks (the claimed middle step is skipped), and the
explicit stop performs track-stopping before cancelling the animation frame
and revokes no URL (the claimed order is permuted and the last step skipped).
-/
theorem teardown_order_violations :
    TeardownStep.stopStreamTracks ∉ unmountCleanup true true true ∧
    stopPreviewSteps true true =
      [TeardownStep.stopStreamTracks, TeardownStep.cancelAnimation] ∧
    TeardownStep.revokeUrls ∉ stopPreviewSteps true true := by
  refine ⟨?_, rfl, ?_⟩ <;> decide

/-- C8 amended: on unmount the cleanup cancels the animation frame and the
interval timer (when pending) and finishes by revoking the registered URLs,
but never stops device tracks; the explicit stop (`stopPreview`) stops the
held stream's tracks and then cancels the animation frame, and never revokes
URLs. -/
theorem teardown_order_amended :
    (∀ animPending intervalSet workerSet : Bool,
      TeardownStep.stopStreamTracks ∉ unmountCleanup animPending intervalSet workerSet ∧
      (unmountCleanup animPending intervalSet workerSet).getLast? =
        some TeardownStep.revokeUrls ∧
      (animPending = true →
        TeardownStep.cancelAnimation ∈ unmountCleanup animPending intervalSet workerSet) ∧
      (intervalSet = true →
        TeardownStep.clearRecordingInterval ∈
          unmountCleanup animPending intervalSet workerSet)) ∧
    (∀ streamHeld animPending : Bool,
      TeardownStep.revokeUrls ∉ stopPreviewSteps streamHeld animPending ∧
      (streamHeld = true → animPending = true →
        stopPreviewSteps streamHeld animPending =
          [TeardownStep.stopStreamTracks, TeardownStep.cancelAnimation])) := by
  constructor
  · intro a i w
    cases a <;> cases i <;> cases w <;> refine ⟨by decide, by decide, ?_, ?_⟩ <;>
      intro h <;> first | decide | (exact absurd h (by decide))
  · intro sh ap
    cases sh <;> cases ap <;> refine ⟨by decide, ?_⟩ <;>
      intro h1 h2 <;> first | decide | (exact absurd h1 (by decide)) |
        (exact absurd h2 (by decide))

/-- Witness for the amended C8: the all-refs-set unmount trace and explicit
stop trace. -/
theorem teardown_order_amended_cases :
    (TeardownStep.stopStreamTracks ∉ unmountCleanup true true true ∧
      (unmountCleanup true true true).getLast? = some TeardownStep.revokeUrls ∧
      TeardownStep.cancelAnimation ∈ unmountCleanup true true true ∧
      TeardownStep.clearRecordingInterval ∈ unmountCleanup true true true) ∧
    (TeardownStep.revokeUrls ∉ stopPreviewSteps true true ∧
      stopPreviewSteps true true =
        [TeardownStep.stopStreamTracks, TeardownStep.cancelAnimation]) :=
  ⟨⟨(teardown_order_amended.1 true true true).1,
    (teardown_order_amended.1 true true true).2.1,
    (teardown_order_amended.1 true true true).2.2.1 rfl,
    (teardown_order_amended.1 true true true).2.2.2 rfl⟩,
   ⟨(teardown_order_amended.2 true true).1,
    (teardown_order_amended.2 true true).2 rfl rfl⟩⟩

/-! ### Object URLs and the memory-manager URL registry
(`createVideoWorker`, App.jsx lines 18-60; `memoryManager`, lines 63-91;
`useEffect` mount and cleanup, lines 122-152; `onstop`, lines 516-521)

URLs are identified by creation order.  The component creates object URLs in
exactly two places: the worker-script URL passed to `new Worker` at mount
(App.jsx line 59), which is never handed to `memoryManager.addUrl`, and the
artifact URL in the `onstop` handler (line 519), which is registered at line
520.  `memoryManager.cleanup()` (lines 75-90) revokes every URL in the
registry and clears it. -/

inductive UrlEvent where
  | mount
  | recorderStop
  | cleanup
deriving DecidableEq

structure UrlState where
  created : Finset Nat
  workerUrls : Finset Nat
  artifactUrls : Finset Nat
  registered : Finset Nat
  revoked : Finset Nat
  nextUrl : Nat
deriving DecidableEq

/-- One component event, as the source performs it. -/
def urlStep (s : UrlState) : UrlEvent → UrlState
  | UrlEvent.mount =>
    { created := insert s.nextUrl s.created,
      workerUrls := insert s.nextUrl s.workerUrls,
      artifactUrls := s.artifactUrls,
      registered := s.registered,
      revoked := s.revoked,
      nextUrl := s.nextUrl + 1 }
  | UrlEvent.recorderStop =>
    { created := insert s.nextUrl s.created,
      workerUrls := s.workerUrls,
      artifactUrls := insert s.nextUrl s.artifactUrls,
      registered := insert s.nextUrl s.registered,
      revoked := s.revoked,
      nextUrl := s.nextUrl + 1 }
  | UrlEvent.cleanup =>
    { created := s.created,
      workerUrls := s.workerUrls,
      artifactUrls := s.artifactUrls,
      registered := ∅,
      revoked := s.revoked ∪ s.registered,
      nextUrl := s.nextUrl }

/-- A component run from the initial state. -/
def runUrlEvents (evs : List UrlEvent) : UrlState :=
  evs.foldl urlStep ⟨∅, ∅, ∅, ∅, ∅, 0⟩

/-- Counterexample to C5: after mounting, stopping one recording and running
the teardown cleanup, the worker-script URL (URL 0) was created by the
component yet was never registered and remains un-revoked. -/
theorem worker_url_never_revoked :
    0 ∈ (runUrlEvents [UrlEvent.mount, UrlEvent.recorderStop, UrlEvent.cleanup]).created ∧
    0 ∉ (runUrlEvents [UrlEvent.mount, UrlEvent.recorderStop, UrlEvent.cleanup]).registered ∧
    0 ∉ (runUrlEvents [UrlEvent.mount, UrlEvent.recorderStop, UrlEvent.cleanup]).revoked := by
  refine ⟨?_, ?_, ?_⟩ <;> decide

/-- The inductive invariant of the URL registry: identifiers below `nextUrl`,
worker URLs created but never registered nor revoked, artifact URLs created
and always registered or already revoked, and the registry and revocations
drawn from created URLs. -/
def UrlInv (s : UrlState) : Prop :=
  (∀ u ∈ s.created, u < s.nextUrl) ∧
  (∀ u ∈ s.workerUrls, u ∈ s.created ∧ u ∉ s.registered ∧ u ∉ s.revoked) ∧
  (∀ u ∈ s.artifactUrls, u ∈ s.created ∧ (u ∈ s.registered ∨ u ∈ s.revoked)) ∧
  (∀ u ∈ s.registered, u ∈ s.created) ∧
  (∀ u ∈ s.revoked, u ∈ s.created)

/-- Every single event preserves the URL invariant. -/
theorem urlInv_step {s : UrlState} (hinv : UrlInv s) (ev : UrlEvent) :
    UrlInv (urlStep s ev) := by
  obtain ⟨hlt, hworker, hartifact, hreg, hrev⟩ := hinv
  cases ev with
  | mount =>
    simp only [UrlInv, urlStep]
    refine ⟨?_, ?_, ?_, ?_, ?_⟩
    · intro u hu
      rcases Finset.mem_insert.mp hu with rfl | hu
      · omega
      · have := hlt u hu; omega
    · intro u hu
      rcases Finset.mem_insert.mp hu with rfl | hu
      · refine ⟨Finset.mem_insert_self _ _, ?_, ?_⟩
        · intro hmem
          have := hlt _ (hreg _ hmem)
          omega
        · intro hmem
          have := hlt _ (hrev _ hmem)
          omega
      · obtain ⟨h1, h2, h3⟩ := hworker u hu
        exact ⟨Finset.mem_insert_of_mem h1, h2, h3⟩
    · intro u hu
      obtain ⟨h1, h2⟩ := hartifact u hu
      exact ⟨Finset.mem_insert_of_mem h1, h2⟩
    · intro u hu
      exact Finset.mem_insert_of_mem (hreg u hu)
    · intro u hu
      exact Finset.mem_insert_of_mem (hrev u hu)
  | recorderStop =>
    simp only [UrlInv, urlStep]
    refine ⟨?_, ?_, ?_, ?_, ?_⟩
    · intro u hu
      rcases Finset.mem_insert.mp hu with rfl | hu
      · omega
      · have := hlt u hu; omega
    · intro u hu
      obtain ⟨h1, h2, h3⟩ := hworker u hu
      refine ⟨Finset.mem_insert_of_mem h1, ?_, h3⟩
      intro hmem
      rcases Finset.mem_insert.mp hmem with rfl | hmem
      · have := hlt _ h1; omega
      · exact h2 hmem
    · intro u hu
      rcases Finset.mem_insert.mp hu with rfl | hu
      · exact ⟨Finset.mem_insert_self _ _, Or.inl (Finset.mem_insert_self _ _)⟩
      · obtain ⟨h1, h2⟩ := hartifact u hu
        refine ⟨Finset.mem_insert_of_mem h1, ?_⟩
        rcases h2 with h2 | h2
        · exact Or.inl (Finset.mem_insert_of_mem h2)
        · exact Or.inr h2
    · intro u hu
      rcases Finset.mem_insert.mp hu with rfl | hu
      · exact Finset.mem_insert_self _ _
      · exact Finset.mem_insert_of_mem (hreg u hu)
    · intro u hu
      exact Finset.mem_insert_of_mem (hrev u hu)
  | cleanup =>
    simp only [UrlInv, urlStep]
    refine ⟨hlt, ?_, ?_, ?_, ?_⟩
    · intro u hu
      obtain ⟨h1, h2, h3⟩ := hworker u hu
      refine ⟨h1, by simp, ?_⟩
      intro hmem
      rcases Finset.mem_union.mp hmem with hmem | hmem
      · exact h3 hmem
      · exact h2 hmem
    · intro u hu
      obtain ⟨h1, h2⟩ := hartifact u hu
      refine ⟨h1, Or.inr ?_⟩
      rcases h2 with h2 | h2
      · exact Finset.mem_union_right _ h2
      · exact Finset.mem_union_left _ h2
    · intro u hu
      simp at hu
    · intro u hu
      rcases Finset.mem_union.mp hu with hu | hu
      · exact hrev u hu
      · exact hreg u hu

/-- The invariant is preserved by folding any event list. -/
theorem urlInv_foldl (evs : List UrlEvent) :
    ∀ s : UrlState, UrlInv s → UrlInv (evs.foldl urlStep s) := by
  induction evs with
  | nil => intro s hs; exact hs
  | cons ev l ih =>
    intro s hs
    exact ih (urlStep s ev) (urlInv_step hs ev)

/-- The invariant holds after any run from the initial state. -/
theorem urlInv_run (evs : List UrlEvent) : UrlInv (runUrlEvents evs) := by
  apply urlInv_foldl
  refine ⟨?_, ?_, ?_, ?_, ?_⟩ <;> intro u hu <;> simp at hu

/-- C5 amended: every artifact URL created by the `onstop` handler is
registered with the memory manager until a cleanup revokes it, and
`memoryManager.cleanup()` revokes every registered URL and empties the
registry; the worker-script URL created at mount, however, is never
registered and remains un-revoked throughout. -/
theorem url_registry_cleanup :
    (∀ evs : List UrlEvent,
      (∀ u ∈ (runUrlEvents evs).artifactUrls,
        u ∈ (runUrlEvents evs).registered ∨ u ∈ (runUrlEvents evs).revoked) ∧
      (∀ u ∈ (runUrlEvents evs).workerUrls,
        u ∈ (runUrlEvents evs).created ∧
        u ∉ (runUrlEvents evs).registered ∧ u ∉ (runUrlEvents evs).revoked)) ∧
    (∀ s : UrlState,
      (urlStep s UrlEvent.cleanup).registered = ∅ ∧
      ∀ u ∈ s.registered, u ∈ (urlStep s UrlEvent.cleanup).revoked) := by
  constructor
  · intro evs
    obtain ⟨_, hworker, hartifact, _, _⟩ := urlInv_run evs
    exact ⟨fun u hu => (hartifact u hu).2, hworker⟩
  · intro s
    exact ⟨rfl, fun u hu => Finset.mem_union_right _ hu⟩

/-- Witness for the amended C5: in the mount / stop-recording / cleanup run,
the artifact URL 1 is revoked, the worker URL 0 is created but never
registered nor revoked, and the cleanup of the pre-cleanup state empties the
registry and revokes URL 1. -/
theorem url_registry_cleanup_cases :
    ((1 ∈ (runUrlEvents [UrlEvent.mount, UrlEvent.recorderStop, UrlEvent.cleanup]).registered ∨
      1 ∈ (runUrlEvents [UrlEvent.mount, UrlEvent.recorderStop, UrlEvent.cleanup]).revoked) ∧
      (0 ∈ (runUrlEvents [UrlEvent.mount, UrlEvent.recorderStop, UrlEvent.cleanup]).created ∧
        0 ∉ (runUrlEvents [UrlEvent.mount, UrlEvent.recorderStop, UrlEvent.cleanup]).registered ∧
        0 ∉ (runUrlEvents [UrlEvent.mount, UrlEvent.recorderStop, UrlEvent.cleanup]).revoked)) ∧
    ((urlStep (runUrlEvents [UrlEvent.mount, UrlEvent.recorderStop]) UrlEvent.cleanup).registered = ∅ ∧
      1 ∈ (urlStep (runUrlEvents [UrlEvent.mount, UrlEvent.recorderStop]) UrlEvent.cleanup).revoked) :=
  ⟨⟨(url_registry_cleanup.1 [UrlEvent.mount, UrlEvent.recorderStop, UrlEvent.cleanup]).1 1
      (by decide),
    (url_registry_cleanup.1 [UrlEvent.mount, UrlEvent.recorderStop, UrlEvent.cleanup]).2 0
      (by decide)⟩,
   ⟨(url_registry_cleanup.2 (runUrlEvents [UrlEvent.mount, UrlEvent.recorderStop])).1,
    (url_registry_cleanup.2 (runUrlEvents [UrlEvent.mount, UrlEvent.recorderStop])).2 1
      (by decide)⟩⟩

/-! ### `switchCamera` (App.jsx lines 588-599)

`switchCamera` is embedded with JavaScript closure semantics over one React
render: the handler closes over the render's `facingMode` value and over the
render's `startPreview` function, which in turn closes over that render's
`getVideoConstraints` (a `useCallback` over `[facingMode, videoQuality]`,
App.jsx lines 189-207).  `setFacingMode(newFacingMode)` updates the component
state for future renders, but the `startPreview` invoked from the `setTimeout`
at line 596 is the captured one, so the restarted `getUserMedia` constraints
carry the captured (pre-toggle) `facingMode`. -/

/-- The render-snapshot values `switchCamera` closes over. -/
structure RenderSnapshot where
  facingMode : String
  isPreviewing : Bool
deriving DecidableEq

/-- What a `switchCamera` call produces: the new `facingMode` component state,
and the facing mode carried by the restarted preview's constraints (`none`
when no restart was scheduled because the component was not previewing). -/
structure SwitchOutcome where
  facingModeState : String
  restartedWith : Option String
deriving DecidableEq

/-- Embedding of `switchCamera` (App.jsx lines 588-599). -/
def switchCamera (snap : RenderSnapshot) : SwitchOutcome :=
  let newFacingMode := if snap.facingMode == "user" then "environment" else "user"
  { facingModeState := newFacingMode,
    restartedWith := if snap.isPreviewing then some snap.facingMode else none }

/-- C9 evaluated at the failing input: switching while previewing with facing
mode `"user"` toggles the state to `"environment"`, but the restarted preview
acquires with the stale captured `"user"`, not the opposite mode the claim
requires; when not previewing, only the state value toggles. -/
theorem switchCamera_stale_restart :
    (switchCamera ⟨"user", true⟩).facingModeState = "environment" ∧
    (switchCamera ⟨"user", true⟩).restartedWith = some "user" ∧
    (switchCamera ⟨"user", true⟩).restartedWith ≠ some "environment" ∧
    (switchCamera ⟨"user", false⟩).facingModeState = "environment" ∧
    (switchCamera ⟨"user", false⟩).restartedWith = none := by
  refine ⟨rfl, rfl, ?_, rfl, rfl⟩
  intro h
  simp [switchCamera] at h

end VideoRecorder
